import Mathlib

/-! # devwisdom-go: wisdom engine, advisor registry and tool-call dispatcher

A shallow embedding of the Go packages `internal/wisdom`, `internal/config`
and `internal/mcp`, followed by theorems about the embedded code.

Conventions of the embedding

* A Go `float64` is a `Float64`: NaN, the two infinities, or a finite value
  given as the rational number it denotes.  Comparisons follow IEEE 754
  (every comparison with NaN is false).
* A Go `map[string]V` is a `GoMap V`: the list of its entries, with pairwise
  distinct keys.  Lookup and assignment are by key.  A `range` loop visits the
  entries in the order of the list; Go leaves that order unspecified, so the
  same map may be visited in the order of any permutation of the list.
* A Go result pair `(value, error)` is an `Except String _`: `.error msg` is
  `(nil, err)` and `.ok v` is `(v, nil)`.
* A method with a pointer receiver returns the receiver's state after the call
  whenever the theorems need it.
-/

set_option linter.dupNamespace false

namespace DevWisdom

/-! ## Go values -/

/-- Go `float64`, up to the order of its values. -/
inductive Float64 where
  | nan
  | negInf
  | posInf
  | fin (q : ℚ)
deriving DecidableEq

namespace Float64

/-- Go `a < b` on `float64`. -/
def lt : Float64 → Float64 → Bool
  | nan, _ => false
  | _, nan => false
  | _, negInf => false
  | negInf, _ => true
  | posInf, _ => false
  | fin _, posInf => true
  | fin a, fin b => decide (a < b)

/-- Go `a >= b` on `float64`. -/
def ge : Float64 → Float64 → Bool
  | nan, _ => false
  | _, nan => false
  | _, negInf => true
  | negInf, _ => false
  | posInf, _ => true
  | fin _, posInf => false
  | fin a, fin b => decide (b ≤ a)

/-- Go `a <= b` on `float64`. -/
def le : Float64 → Float64 → Bool
  | nan, _ => false
  | _, nan => false
  | negInf, _ => true
  | _, negInf => false
  | _, posInf => true
  | posInf, _ => false
  | fin a, fin b => decide (a ≤ b)

/-- The `float64` denoted by an integer constant. -/
def ofNat (n : Nat) : Float64 := fin n

/-- The `float64` nearest to the decimal literal `29.999`. -/
def lit29_999 : Float64 := fin (8443967826342969 / 281474976710656)

/-- The `float64` nearest to the decimal literal `49.999`. -/
def lit49_999 : Float64 := fin (7036733680278045 / 140737488355328)

/-- The `float64` nearest to the decimal literal `69.999`. -/
def lit69_999 : Float64 := fin (2462870861846151 / 35184372088832)

/-- The `float64` nearest to the decimal literal `84.999`. -/
def lit84_999 : Float64 := fin (2990636443178631 / 35184372088832)

end Float64

/-- Go `map[string]V`: its entries, keys pairwise distinct; the list order is
the order in which one `range` loop visits them. -/
abbrev GoMap (V : Type) := List (String × V)

namespace GoMap

/-- Go `v, ok := m[k]`: `none` stands for `ok == false`. -/
def get {V : Type} (m : GoMap V) (k : String) : Option V :=
  match m with
  | [] => none
  | (k', v) :: rest => if k' = k then some v else get rest k

/-- Go `m[k] = v`: overwrite the entry of `k`, or add one. -/
def set {V : Type} (m : GoMap V) (k : String) (v : V) : GoMap V :=
  match m with
  | [] => [(k, v)]
  | (k', v') :: rest => if k' = k then (k, v) :: rest else (k', v') :: set rest k v

/-- Keys of the map. -/
def keys {V : Type} (m : GoMap V) : List String := m.map Prod.fst

/-- The keys are pairwise distinct, as in every Go map. -/
def WF {V : Type} (m : GoMap V) : Prop := (keys m).Nodup

/-- Two entry lists of one and the same map: they differ in order only. -/
def SameMap {V : Type} (m₁ m₂ : GoMap V) : Prop := List.Perm m₁ m₂

end GoMap

/-! ## internal/wisdom/types.go -/

/-- Go `type Quote struct`. -/
structure Quote where
  Quote : String
  Source : String
  Encouragement : String
  WisdomSource : String := ""
  WisdomIcon : String := ""
deriving DecidableEq, Repr

/-- Go `type Source struct`. -/
structure Source where
  Name : String
  Icon : String
  Quotes : GoMap (List Quote)
  Description : String := ""
deriving DecidableEq, Repr

/-- Go `type AdvisorInfo struct`. -/
structure AdvisorInfo where
  Advisor : String
  Icon : String := ""
  Rationale : String := ""
  HelpsWith : String := ""
  Language : String := ""
deriving DecidableEq, Repr

/-- Go `type AeonLevel string`. -/
abbrev AeonLevel := String

def AeonChaos : AeonLevel := "chaos"
def AeonLower : AeonLevel := "lower_aeons"
def AeonMiddle : AeonLevel := "middle_aeons"
def AeonUpper : AeonLevel := "upper_aeons"
def AeonTreasury : AeonLevel := "treasury"

/-- Go `func GetAeonLevel(score float64) string`. -/
def GetAeonLevel (score : Float64) : String :=
  if score.lt (Float64.ofNat 30) then AeonChaos
  else if score.lt (Float64.ofNat 50) then AeonLower
  else if score.lt (Float64.ofNat 70) then AeonMiddle
  else if score.lt (Float64.ofNat 85) then AeonUpper
  else AeonTreasury

/-- The quote built by the `return &Quote{...}` of `GetQuote`. -/
def sentinelQuote : Quote :=
  { Quote := "Silence is also wisdom."
    Source := "Unknown"
    Encouragement := "Sometimes reflection is the answer." }

/-- The loop `for _, qs := range s.Quotes { if len(qs) > 0 { quotes = qs; break } }`
of `GetQuote`, run over the entries in the order the loop visits them, starting
from the current value of the local `quotes`. -/
def rangeFirstNonEmpty (entries : GoMap (List Quote)) (quotes : List Quote) : List Quote :=
  match entries with
  | [] => quotes
  | (_, qs) :: rest => if qs.length > 0 then qs else rangeFirstNonEmpty rest quotes

/-- The local `quotes` of `GetQuote` when control reaches `if len(quotes) == 0`. -/
def Source.selectQuotes (s : Source) (aeonLevel : String) : List Quote :=
  let (quotes, found) :=
    match s.Quotes.get aeonLevel with
    | some qs => (qs, true)
    | none => ([], false)
  if !found || quotes.length == 0 then rangeFirstNonEmpty s.Quotes quotes else quotes

/-- Go `func (s *Source) GetQuote(aeonLevel string) *Quote`.  The result is the
quote the returned pointer refers to; `quotes[0]` is typed with the proof that
index 0 is within bounds. -/
def Source.GetQuote (s : Source) (aeonLevel : String) : Quote :=
  let quotes := s.selectQuotes aeonLevel
  if h : quotes.length = 0 then sentinelQuote else quotes[0]

/-! ## internal/wisdom/sources.go -/

/-- Go `func GetBuiltInSources() map[string]*Source`. -/
def GetBuiltInSources : GoMap Source :=
  let sources : GoMap Source := []
  let sources := sources.set "bofh"
    { Name := "BOFH (Bastard Operator From Hell)"
      Icon := "ðŸ˜ˆ"
      Quotes := [] }
  match sources.get "bofh" with
  | some bofh =>
    sources.set "bofh"
      { bofh with
        Quotes := bofh.Quotes.set "chaos"
          [ { Quote := "It's not a bug, it's a feature."
              Source := "BOFH Excuse Calendar"
              Encouragement := "Document it and ship it." } ] }
  | none => sources

/-! ## internal/wisdom/advisors.go -/

/-- Go `type AdvisorRegistry struct`. -/
structure AdvisorRegistry where
  metricAdvisors : GoMap AdvisorInfo
  toolAdvisors : GoMap AdvisorInfo
  stageAdvisors : GoMap AdvisorInfo
  initialized : Bool := false
deriving DecidableEq, Repr

/-- Go `func NewAdvisorRegistry() *AdvisorRegistry`. -/
def NewAdvisorRegistry : AdvisorRegistry :=
  { metricAdvisors := [], toolAdvisors := [], stageAdvisors := [] }

namespace AdvisorRegistry

/-- Go `func (r *AdvisorRegistry) loadMetricAdvisors()`. -/
def loadMetricAdvisors (r : AdvisorRegistry) : AdvisorRegistry :=
  let r := { r with
    metricAdvisors := r.metricAdvisors.set "security"
      { Advisor := "bofh"
        Icon := "😈"
        Rationale := "BOFH is paranoid about security, expects users to break everything"
        HelpsWith := "Finding vulnerabilities, defensive thinking, access control" } }
  { r with
    metricAdvisors := r.metricAdvisors.set "testing"
      { Advisor := "stoic"
        Icon := "🏛️"
        Rationale := "Stoics teach discipline through adversity - tests reveal truth"
        HelpsWith := "Persistence through failures, accepting harsh feedback" } }

/-- Go `func (r *AdvisorRegistry) loadToolAdvisors()`. -/
def loadToolAdvisors (r : AdvisorRegistry) : AdvisorRegistry :=
  { r with
    toolAdvisors := r.toolAdvisors.set "project_scorecard"
      { Advisor := "pistis_sophia"
        Rationale := "Journey through aeons mirrors project health stages" } }

/-- Go `func (r *AdvisorRegistry) loadStageAdvisors()`. -/
def loadStageAdvisors (r : AdvisorRegistry) : AdvisorRegistry :=
  { r with
    stageAdvisors := r.stageAdvisors.set "daily_checkin"
      { Advisor := "pistis_sophia"
        Icon := "📜"
        Rationale := "Start each day with enlightenment journey wisdom" } }

/-- Go `func (r *AdvisorRegistry) Initialize()`. -/
def Initialize (r : AdvisorRegistry) : AdvisorRegistry :=
  if r.initialized then r
  else
    let r := r.loadMetricAdvisors
    let r := r.loadToolAdvisors
    let r := r.loadStageAdvisors
    { r with initialized := true }

/-- Go `func (r *AdvisorRegistry) GetAdvisorForMetric(metric string) (*AdvisorInfo, error)`. -/
def GetAdvisorForMetric (r : AdvisorRegistry) (metric : String) : Except String AdvisorInfo :=
  match r.metricAdvisors.get metric with
  | none => .error ("no advisor for metric: " ++ metric)
  | some advisor => .ok advisor

/-- Go `func (r *AdvisorRegistry) GetAdvisorForTool(tool string) (*AdvisorInfo, error)`. -/
def GetAdvisorForTool (r : AdvisorRegistry) (tool : String) : Except String AdvisorInfo :=
  match r.toolAdvisors.get tool with
  | none => .error ("no advisor for tool: " ++ tool)
  | some advisor => .ok advisor

/-- Go `func (r *AdvisorRegistry) GetAdvisorForStage(stage string) (*AdvisorInfo, error)`. -/
def GetAdvisorForStage (r : AdvisorRegistry) (stage : String) : Except String AdvisorInfo :=
  match r.stageAdvisors.get stage with
  | none => .error ("no advisor for stage: " ++ stage)
  | some advisor => .ok advisor

end AdvisorRegistry

/-! ## internal/config/config.go -/

/-- Go `type Config struct`. -/
structure Config where
  Source : String
  HebrewEnabled : Bool
  HebrewOnly : Bool
  Disabled : Bool
  configPath : String
deriving DecidableEq, Repr

/-- What the process observes of its surroundings through `os` and
`encoding/json`. -/
structure Env where
  /-- Go `os.Getenv`. -/
  Getenv : String → String
  /-- Go `os.Stat(path)` returned a nil error. -/
  Stat : String → Bool
  /-- Go `os.ReadFile`; `none` when it returns an error. -/
  ReadFile : String → Option String
  /-- Go `os.UserHomeDir`; `none` when it returns an error. -/
  UserHomeDir : Option String
  /-- Go `json.Unmarshal(data, c)`: the `Config` afterwards, and whether the
  returned error is nil. -/
  Unmarshal : String → Config → Config × Bool

/-- Go `filepath.Join(dir, name)` for a clean `dir`. -/
def filepathJoin (dir name : String) : String :=
  if dir = "." then name else dir ++ "/" ++ name

/-- Go `func GetConfigPath() string` of package `config`. -/
def GetConfigPath (env : Env) : String :=
  let fallback := filepathJoin "." ".exarp_wisdom_config"
  match env.UserHomeDir with
  | some home =>
    let homeConfig := filepathJoin home ".exarp_wisdom_config"
    if env.Stat homeConfig then homeConfig else fallback
  | none => fallback

/-- Go `func NewConfig() *Config`. -/
def NewConfig (env : Env) : Config :=
  { Source := "pistis_sophia"
    HebrewEnabled := false
    HebrewOnly := false
    Disabled := false
    configPath := GetConfigPath env }

/-- Go `func (c *Config) Load() error`: the `Config` afterwards and the
returned error. -/
def Config.Load (c : Config) (env : Env) : Config × Option String :=
  let source := env.Getenv "EXARP_WISDOM_SOURCE"
  let c := if source ≠ "" then { c with Source := source } else c
  let c := if env.Getenv "EXARP_WISDOM_HEBREW" = "1" then { c with HebrewEnabled := true } else c
  let c := if env.Getenv "EXARP_WISDOM_HEBREW_ONLY" = "1" then { c with HebrewOnly := true } else c
  let c := if env.Getenv "EXARP_DISABLE_WISDOM" = "1" then { c with Disabled := true } else c
  let c := if env.Stat ".exarp_no_wisdom" then { c with Disabled := true } else c
  if env.Stat c.configPath then
    match env.ReadFile c.configPath with
    | some data =>
      let (c', ok) := env.Unmarshal data c
      if ok then (c', none) else (c', none)
    | none => (c, none)
  else (c, none)

/-! ## internal/wisdom/engine.go -/

/-- Go `type Engine struct`, without its lock.  `Config` and `NewConfig`, which
`engine.go` uses unqualified, are those of `internal/config/config.go`; a source
in the catalog is never a nil pointer. -/
structure Engine where
  sources : GoMap Source
  advisors : AdvisorRegistry
  config : Config
  initialized : Bool := false

/-- Go `func NewEngine() *Engine`. -/
def NewEngine (env : Env) : Engine :=
  { sources := []
    advisors := NewAdvisorRegistry
    config := NewConfig env }

namespace Engine

/-- Go `func (e *Engine) loadBuiltInSources() error`: the engine afterwards and
the returned error. -/
def loadBuiltInSources (e : Engine) : Engine × Option String :=
  let sources := GetBuiltInSources
  ({ e with sources := sources.foldl (fun m entry => m.set entry.1 entry.2) e.sources }, none)

/-- Go `func (e *Engine) Initialize() error`: the engine afterwards and the
returned error. -/
def Initialize (e : Engine) (env : Env) : Engine × Option String :=
  if e.initialized then (e, none)
  else
    match e.config.Load env with
    | (cfg, some err) => ({ e with config := cfg }, some ("failed to load config: " ++ err))
    | (cfg, none) =>
      match ({ e with config := cfg } : Engine).loadBuiltInSources with
      | (e', some err) => (e', some ("failed to load wisdom sources: " ++ err))
      | (e', none) =>
        ({ e' with advisors := e'.advisors.Initialize, initialized := true }, none)

/-- Go `func (e *Engine) GetWisdom(score float64, source string) (*Quote, error)`:
the result and the engine afterwards. -/
def GetWisdom (e : Engine) (score : Float64) (source : String) :
    Except String Quote × Engine :=
  if !e.initialized then (.error "engine not initialized", e)
  else
    match e.sources.get source with
    | none => (.error ("unknown source: " ++ source), e)
    | some src =>
      let aeonLevel := GetAeonLevel score
      let quote := src.GetQuote aeonLevel
      (.ok quote, e)

end Engine

/-! ## internal/mcp/server.go -/

/-- Go `interface{}` holding a JSON-like value. -/
inductive Value where
  | null
  | bool (b : Bool)
  | num (x : Float64)
  | str (s : String)
  | arr (items : List Value)
  | obj (fields : List (String × Value))

/-- Go `type WisdomServer struct`. -/
structure WisdomServer where
  wisdom : Engine

/-- Go `func NewWisdomServer() *WisdomServer`. -/
def NewWisdomServer (env : Env) : WisdomServer :=
  { wisdom := NewEngine env }

namespace WisdomServer

/-- Go `func (s *WisdomServer) handleConsultAdvisor`. -/
def handleConsultAdvisor (s : WisdomServer) (_params : GoMap Value) :
    Except String Value × WisdomServer :=
  (.ok (.obj
    [ ("quote", .str "Wisdom implementation pending")
    , ("advisor", .str "placeholder")
    , ("rationale", .str "Implementation in progress") ]), s)

/-- Go `func (s *WisdomServer) handleGetWisdom`. -/
def handleGetWisdom (s : WisdomServer) (_params : GoMap Value) :
    Except String Value × WisdomServer :=
  (.ok (.obj
    [ ("quote", .str "Implementation pending")
    , ("source", .str "placeholder") ]), s)

/-- Go `func (s *WisdomServer) handleGetDailyBriefing`. -/
def handleGetDailyBriefing (s : WisdomServer) (_params : GoMap Value) :
    Except String Value × WisdomServer :=
  (.ok (.obj [ ("briefing", .str "Implementation pending") ]), s)

/-- Go `func (s *WisdomServer) handleGetConsultationLog`. -/
def handleGetConsultationLog (s : WisdomServer) (_params : GoMap Value) :
    Except String Value × WisdomServer :=
  (.ok (.arr []), s)

/-- Go `func (s *WisdomServer) handleExportForPodcast`. -/
def handleExportForPodcast (s : WisdomServer) (_params : GoMap Value) :
    Except String Value × WisdomServer :=
  (.ok (.obj [ ("episodes", .arr []) ]), s)

/-- Go `func (s *WisdomServer) HandleToolCall(name string, params map[string]interface{})
(interface{}, error)`: the result and the server afterwards. -/
def HandleToolCall (s : WisdomServer) (name : String) (params : GoMap Value) :
    Except String Value × WisdomServer :=
  if name = "consult_advisor" then s.handleConsultAdvisor params
  else if name = "get_wisdom" then s.handleGetWisdom params
  else if name = "get_daily_briefing" then s.handleGetDailyBriefing params
  else if name = "get_consultation_log" then s.handleGetConsultationLog params
  else if name = "export_for_podcast" then s.handleExportForPodcast params
  else (.error ("unknown tool: " ++ name), s)

end WisdomServer

/-- What one call `decoder.Decode(&msg)` of `Run` finds next on `stdin`: a
record that decodes into `msg`, or a record on which `Decode` returns an error
other than `io.EOF`.  The end of the list is `io.EOF`. -/
inductive Input where
  | message (msg : GoMap Value)
  | malformed (err : String)

namespace WisdomServer

/-- The `for` loop of `Run`: `stdin` is what is left to read, `written` the
messages encoded to `stdout` so far, `writeErr n` the error of the `Encode`
call that follows `n` successful ones (`none` when it succeeds).  The result is
the error returned by `Run` and the messages written. -/
def runLoop (writeErr : Nat → Option String) (stdin : List Input)
    (written : List (GoMap Value)) : Option String × List (GoMap Value) :=
  match stdin with
  | [] => (none, written)
  | .malformed err :: _ => (some ("failed to decode message: " ++ err), written)
  | .message msg :: rest =>
    match writeErr written.length with
    | some err => (some ("failed to encode response: " ++ err), written)
    | none => runLoop writeErr rest (written ++ [msg])

/-- Go `func (s *WisdomServer) Run(ctx context.Context, stdin io.Reader, stdout io.Writer)
error`: the returned error, the messages written to `stdout`, and the server
afterwards. -/
def Run (s : WisdomServer) (env : Env) (stdin : List Input) (writeErr : Nat → Option String) :
    Option String × List (GoMap Value) × WisdomServer :=
  match s.wisdom.Initialize env with
  | (e, some err) =>
    (some ("failed to initialize wisdom engine: " ++ err), [], { s with wisdom := e })
  | (e, none) =>
    let (err, written) := runLoop writeErr stdin []
    (err, written, { s with wisdom := e })

end WisdomServer

end DevWisdom

/-! ## Specification-side definitions and concrete inputs -/

namespace DevWisdom

instance GoMap.decidableWF {V : Type} (m : GoMap V) : Decidable (GoMap.WF m) := by
  unfold GoMap.WF; infer_instance

instance GoMap.decidableSameMap {V : Type} [DecidableEq V] (m₁ m₂ : GoMap V) :
    Decidable (GoMap.SameMap m₁ m₂) := by
  unfold GoMap.SameMap; infer_instance

/-- The five level names in the enumeration order of the specification. -/
def levelOrder : List String :=
  [AeonChaos, AeonLower, AeonMiddle, AeonUpper, AeonTreasury]

/-- Fallback of the specification (section 4.2), in its words: the first
non-empty bucket in the fixed enumeration order chaos, lower, middle, upper,
treasury; empty when there is none. -/
def fixedOrderFallback (s : Source) : List Quote :=
  ((levelOrder.filterMap (fun level => s.Quotes.get level)).find?
    (fun qs => decide (qs.length > 0))).getD []

/-- A quote stored in a `lower_aeons` bucket of the example sources. -/
def quoteLower : Quote :=
  { Quote := "Begin where you are.", Source := "Example", Encouragement := "One step." }

/-- A quote stored in a `treasury` bucket of the example sources. -/
def quoteTreasury : Quote :=
  { Quote := "Keep what works.", Source := "Example", Encouragement := "Well done." }

/-- A source with an empty `chaos` bucket and two non-empty buckets, whose
`range` loop visits `treasury` first. -/
def srcTreasuryFirst : Source :=
  { Name := "example"
    Icon := ""
    Quotes := [("treasury", [quoteTreasury]), ("chaos", []), ("lower_aeons", [quoteLower])] }

/-- The same source as `srcTreasuryFirst`, whose `range` loop visits the
buckets in the order chaos, lower_aeons, treasury (the order above, started one
entry later). -/
def srcLowerFirst : Source :=
  { Name := "example"
    Icon := ""
    Quotes := [("chaos", []), ("lower_aeons", [quoteLower]), ("treasury", [quoteTreasury])] }

/-- A source with an empty `chaos` bucket and a non-empty `treasury` bucket. -/
def srcChaosEmpty : Source :=
  { Name := "example"
    Icon := ""
    Quotes := [("chaos", []), ("treasury", [quoteTreasury])] }

/-- A source whose only bucket is empty. -/
def srcSilent : Source :=
  { Name := "example"
    Icon := ""
    Quotes := [("chaos", [])] }

/-- Surroundings with no environment variable set, no file and no home
directory. -/
def emptyEnv : Env :=
  { Getenv := fun _ => ""
    Stat := fun _ => false
    ReadFile := fun _ => none
    UserHomeDir := none
    Unmarshal := fun _ c => (c, false) }

/-- The engine after `NewEngine()` and `Initialize()` in `emptyEnv`. -/
def initializedEngine : Engine := ((NewEngine emptyEnv).Initialize emptyEnv).1

/-- An initialized engine whose catalog holds `srcLowerFirst` under "example". -/
def engineLowerFirst : Engine :=
  { initializedEngine with sources := initializedEngine.sources.set "example" srcLowerFirst }

/-- The engine `engineLowerFirst` whose source "example" is visited in the order
of `srcTreasuryFirst`. -/
def engineTreasuryFirst : Engine :=
  { initializedEngine with sources := initializedEngine.sources.set "example" srcTreasuryFirst }

/-- The string stored under `key` in a result that is a map, if any. -/
def Value.stringField (v : Value) (key : String) : Option String :=
  match v with
  | .obj fields =>
    match GoMap.get fields key with
    | some (.str text) => some text
    | _ => none
  | _ => none

/-- The string stored under `key` in the value of a successful call. -/
def resultStringField (r : Except String Value) (key : String) : Option String :=
  match r with
  | .ok v => v.stringField key
  | .error _ => none

/-- The five tool names of the catalog (specification, section 6). -/
def toolCatalog : List String :=
  ["consult_advisor", "get_wisdom", "get_daily_briefing", "get_consultation_log",
    "export_for_podcast"]

/-- The registry after `NewAdvisorRegistry()` and `Initialize()`. -/
def initializedRegistry : AdvisorRegistry := NewAdvisorRegistry.Initialize

/-- The server after `NewWisdomServer()` and the `Initialize()` call of `Run`,
in `emptyEnv`. -/
def initializedServer : WisdomServer :=
  { wisdom := ((NewWisdomServer emptyEnv).wisdom.Initialize emptyEnv).1 }

/-- Parameters of a `consult_advisor` call with metric "security" and tool
"project_scorecard". -/
def consultParams : GoMap Value :=
  [("metric", .str "security"), ("tool", .str "project_scorecard"),
    ("score", .num (Float64.ofNat 40))]

/-- Position of a level name in the order chaos, lower_aeons, middle_aeons,
upper_aeons, treasury (5 for any other string). -/
def levelRank (level : String) : Nat := levelOrder.indexOf level

/-- The server after a sequence of tool calls, each given by its name and its
parameters. -/
def callAll (s : WisdomServer) (calls : List (String × GoMap Value)) : WisdomServer :=
  calls.foldl (fun server call => (server.HandleToolCall call.1 call.2).2) s

/-- The number of `consult_advisor` calls in a sequence of tool calls. -/
def consultCount (calls : List (String × GoMap Value)) : Nat :=
  (calls.filter (fun call => decide (call.1 = "consult_advisor"))).length

/-- The number of entries of a result that is a sequence. -/
def resultLength (r : Except String Value) : Option Nat :=
  match r with
  | .ok (.arr items) => some items.length
  | _ => none

/-- A well-formed request record. -/
def requestGetWisdom : GoMap Value :=
  [("id", .num (Float64.ofNat 2)), ("tool", .str "get_wisdom"),
    ("params", .obj [("score", .num (Float64.ofNat 40)), ("source", .str "bofh")])]

/-- An input stream whose first record is malformed and whose second record is
well-formed. -/
def stdinMalformedFirst : List Input :=
  [.malformed "invalid character 'x' looking for beginning of value",
    .message requestGetWisdom]

/-- A writer on which every `Encode` succeeds. -/
def writeAlways : Nat → Option String := fun _ => none

/-- The text of a config file as `Save` writes it for the source "bofh" with
all flags false. -/
def configFileText : String :=
  "\x7b\n  \"source\": \"bofh\",\n  \"hebrew_enabled\": false,\n" ++
    "  \"hebrew_only\": false,\n  \"disabled\": false\n\x7d"

/-- Surroundings in which `EXARP_WISDOM_SOURCE` is "stoic",
`EXARP_DISABLE_WISDOM` is "1", the marker file `.exarp_no_wisdom` exists, there
is no home directory, and `.exarp_wisdom_config` holds `configFileText`;
`json.Unmarshal` of that text stores "bofh" and the three `false` flags. -/
def fileEnv : Env :=
  { Getenv := fun name =>
      if name = "EXARP_WISDOM_SOURCE" then "stoic"
      else if name = "EXARP_DISABLE_WISDOM" then "1"
      else ""
    Stat := fun path => decide (path = ".exarp_no_wisdom" ∨ path = ".exarp_wisdom_config")
    ReadFile := fun path => if path = ".exarp_wisdom_config" then some configFileText else none
    UserHomeDir := none
    Unmarshal := fun data c =>
      if data = configFileText then
        ({ c with Source := "bofh", HebrewEnabled := false, HebrewOnly := false,
                  Disabled := false }, true)
      else (c, false) }

/-- The source stored under "bofh" by `GetBuiltInSources`. -/
def bofhSource : Source :=
  { Name := "BOFH (Bastard Operator From Hell)"
    Icon := "ðŸ˜ˆ"
    Quotes := [("chaos", [{ Quote := "It's not a bug, it's a feature."
                            Source := "BOFH Excuse Calendar"
                            Encouragement := "Document it and ship it." }])] }

/-- The surroundings of `fileEnv` without the config file. -/
def envOnly : Env :=
  { fileEnv with
    Stat := fun path => decide (path = ".exarp_no_wisdom")
    ReadFile := fun _ => none }

end DevWisdom

/-! ## Theorems -/

namespace DevWisdom

/-- C1: `GetAeonLevel` returns "chaos" below 30, "lower_aeons" from 30 up to
but not including 50, "middle_aeons" from 50 up to 70, "upper_aeons" from 70 up
to 85 and "treasury" from 85 on, for every `float64` and with no special case
outside the range 0 to 100; the boundary values of the specification are
classified as listed there. -/
theorem GetAeonLevel_thresholds (score : Float64) :
    (score.lt (Float64.ofNat 30) = true → GetAeonLevel score = "chaos") ∧
    (score.ge (Float64.ofNat 30) = true ∧ score.lt (Float64.ofNat 50) = true →
      GetAeonLevel score = "lower_aeons") ∧
    (score.ge (Float64.ofNat 50) = true ∧ score.lt (Float64.ofNat 70) = true →
      GetAeonLevel score = "middle_aeons") ∧
    (score.ge (Float64.ofNat 70) = true ∧ score.lt (Float64.ofNat 85) = true →
      GetAeonLevel score = "upper_aeons") ∧
    (score.ge (Float64.ofNat 85) = true → GetAeonLevel score = "treasury") ∧
    GetAeonLevel Float64.lit29_999 = "chaos" ∧
    GetAeonLevel (Float64.ofNat 30) = "lower_aeons" ∧
    GetAeonLevel Float64.lit49_999 = "lower_aeons" ∧
    GetAeonLevel (Float64.ofNat 50) = "middle_aeons" ∧
    GetAeonLevel Float64.lit69_999 = "middle_aeons" ∧
    GetAeonLevel (Float64.ofNat 70) = "upper_aeons" ∧
    GetAeonLevel Float64.lit84_999 = "upper_aeons" ∧
    GetAeonLevel (Float64.ofNat 85) = "treasury" ∧
    GetAeonLevel (Float64.ofNat 100) = "treasury" ∧
    GetAeonLevel (Float64.fin (-5)) = "chaos" ∧
    GetAeonLevel Float64.negInf = "chaos" ∧
    GetAeonLevel (Float64.ofNat 1000) = "treasury" ∧
    GetAeonLevel Float64.posInf = "treasury" := by
  have hlit : ∀ q : ℚ, GetAeonLevel (Float64.fin q) =
      if q < 30 then "chaos" else if q < 50 then "lower_aeons"
      else if q < 70 then "middle_aeons" else if q < 85 then "upper_aeons" else "treasury" := by
    intro q
    simp [GetAeonLevel, Float64.lt, Float64.ofNat, AeonChaos, AeonLower, AeonMiddle, AeonUpper,
      AeonTreasury]
  refine ⟨?_, ?_, ?_, ?_, ?_, ?_, by decide, ?_, by decide, ?_,
    by decide, ?_, by decide, by decide, by decide, by decide, by decide, by decide⟩
  case refine_6 => rw [Float64.lit29_999, hlit]; norm_num
  case refine_7 => rw [Float64.lit49_999, hlit]; norm_num
  case refine_8 => rw [Float64.lit69_999, hlit]; norm_num
  case refine_9 => rw [Float64.lit84_999, hlit]; norm_num
  all_goals
    cases score <;>
      simp only [GetAeonLevel, Float64.lt, Float64.ge, Float64.ofNat, AeonChaos, AeonLower,
        AeonMiddle, AeonUpper, AeonTreasury, decide_eq_true_eq, Bool.false_eq_true,
        if_true, if_false, false_and, and_false, false_implies, implies_true, Nat.cast_ofNat]
  all_goals
    intro h
    split_ifs <;> first | rfl | (exfalso; linarith [h.1, h.2]) | (exfalso; linarith)

/-- Witness for C1 at the finite score 42. -/
theorem GetAeonLevel_thresholds_witness :
    ((Float64.ofNat 42).ge (Float64.ofNat 30) = true ∧
      (Float64.ofNat 42).lt (Float64.ofNat 50) = true) ∧
    GetAeonLevel (Float64.ofNat 42) = "lower_aeons" :=
  ⟨by decide, (GetAeonLevel_thresholds (Float64.ofNat 42)).2.1 (by decide)⟩

end DevWisdom

namespace DevWisdom

/-! ### Go maps -/

theorem GoMap.mem_of_get_eq_some {V : Type} (m : GoMap V) (k : String) (v : V)
    (h : m.get k = some v) : (k, v) ∈ m := by
  induction m with
  | nil => simp [GoMap.get] at h
  | cons entry rest ih =>
    obtain ⟨k', v'⟩ := entry
    by_cases hk : k' = k
    · subst hk
      simp only [GoMap.get, if_true, Option.some.injEq] at h
      subst h
      exact List.mem_cons_self _ _
    · simp only [GoMap.get, if_neg hk] at h
      exact List.mem_cons_of_mem _ (ih h)

theorem GoMap.get_eq_none_iff {V : Type} (m : GoMap V) (k : String) :
    m.get k = none ↔ k ∉ m.keys := by
  induction m with
  | nil => simp [GoMap.get, GoMap.keys]
  | cons entry rest ih =>
    obtain ⟨k', v'⟩ := entry
    by_cases hk : k' = k
    · subst hk
      simp [GoMap.get, GoMap.keys]
    · have hk' : ¬ k = k' := fun h => hk h.symm
      simp only [GoMap.get, if_neg hk, ih, GoMap.keys, List.map_cons, List.mem_cons, hk',
        false_or]

theorem GoMap.get_of_mem {V : Type} (m : GoMap V) (hwf : m.WF) (k : String) (v : V)
    (h : (k, v) ∈ m) : m.get k = some v := by
  induction m with
  | nil => simp at h
  | cons entry rest ih =>
    obtain ⟨k', v'⟩ := entry
    simp only [GoMap.WF, GoMap.keys, List.map_cons, List.nodup_cons] at hwf
    rcases List.mem_cons.mp h with heq | hmem
    · cases heq
      simp [GoMap.get]
    · have hk : ¬ k' = k := by
        intro hk
        subst hk
        exact hwf.1 (List.mem_map_of_mem Prod.fst hmem)
      simp only [GoMap.get, if_neg hk]
      exact ih hwf.2 hmem

theorem GoMap.wf_of_sameMap {V : Type} (m₁ m₂ : GoMap V) (hwf : m₁.WF)
    (hsame : GoMap.SameMap m₁ m₂) : m₂.WF := by
  unfold GoMap.WF GoMap.keys at *
  exact (List.Perm.nodup_iff (List.Perm.map Prod.fst hsame)).mp hwf

theorem GoMap.get_sameMap {V : Type} (m₁ m₂ : GoMap V) (hwf : m₁.WF)
    (hsame : GoMap.SameMap m₁ m₂) (k : String) : m₁.get k = m₂.get k := by
  cases h : m₁.get k with
  | none =>
    have hk : k ∉ m₂.keys := by
      intro hmem
      exact (GoMap.get_eq_none_iff m₁ k).mp h
        ((List.Perm.mem_iff (List.Perm.map Prod.fst hsame)).mpr hmem)
    exact ((GoMap.get_eq_none_iff m₂ k).mpr hk).symm
  | some v =>
    have hmem : (k, v) ∈ m₂ := (List.Perm.mem_iff hsame).mp (GoMap.mem_of_get_eq_some m₁ k v h)
    exact (GoMap.get_of_mem m₂ (GoMap.wf_of_sameMap m₁ m₂ hwf hsame) k v hmem).symm

/-! ### The fallback loop of `GetQuote` -/

theorem rangeFirstNonEmpty_of_all_empty (entries : GoMap (List Quote)) (quotes : List Quote)
    (h : ∀ entry ∈ entries, entry.2 = []) : rangeFirstNonEmpty entries quotes = quotes := by
  induction entries with
  | nil => rfl
  | cons entry rest ih =>
    obtain ⟨k, qs⟩ := entry
    have hqs : qs = [] := h (k, qs) (List.mem_cons_self _ _)
    subst hqs
    simp only [rangeFirstNonEmpty, List.length_nil, gt_iff_lt, lt_self_iff_false, if_false]
    exact ih (fun entry hmem => h entry (List.mem_cons_of_mem _ hmem))

theorem rangeFirstNonEmpty_append (pre post : GoMap (List Quote)) (key : String)
    (qs quotes : List Quote) (hpre : ∀ entry ∈ pre, entry.2 = []) (hqs : qs ≠ []) :
    rangeFirstNonEmpty (pre ++ (key, qs) :: post) quotes = qs := by
  induction pre with
  | nil =>
    have hlen : qs.length > 0 := List.length_pos.mpr hqs
    simp [rangeFirstNonEmpty, hlen]
  | cons entry rest ih =>
    obtain ⟨k, qs'⟩ := entry
    have hqs' : qs' = [] := hpre (k, qs') (List.mem_cons_self _ _)
    subst hqs'
    simp only [List.cons_append, rangeFirstNonEmpty, List.length_nil, gt_iff_lt,
      lt_self_iff_false, if_false]
    exact ih (fun entry hmem => hpre entry (List.mem_cons_of_mem _ hmem))

theorem rangeFirstNonEmpty_mem (entries : GoMap (List Quote)) (quotes : List Quote)
    (h : ∃ entry ∈ entries, entry.2 ≠ []) :
    ∃ entry ∈ entries, entry.2 ≠ [] ∧ rangeFirstNonEmpty entries quotes = entry.2 := by
  induction entries with
  | nil => simp at h
  | cons entry rest ih =>
    obtain ⟨k, qs⟩ := entry
    by_cases hqs : qs = []
    · subst hqs
      obtain ⟨entry, hmem, hne⟩ := h
      rcases List.mem_cons.mp hmem with heq | hmem'
      · subst heq
        exact absurd rfl hne
      · obtain ⟨entry', hmem'', hne', heq'⟩ := ih ⟨entry, hmem', hne⟩
        refine ⟨entry', List.mem_cons_of_mem _ hmem'', hne', ?_⟩
        simpa [rangeFirstNonEmpty] using heq'
    · have hlen : qs.length > 0 := List.length_pos.mpr hqs
      exact ⟨(k, qs), List.mem_cons_self _ _, hqs, by simp [rangeFirstNonEmpty, hlen]⟩

theorem Source.selectQuotes_of_nonempty (s : Source) (level : String) (qs : List Quote)
    (h : s.Quotes.get level = some qs) (hqs : qs ≠ []) : s.selectQuotes level = qs := by
  have hlen : ¬ qs.length = 0 := fun h0 => hqs (List.length_eq_zero.mp h0)
  simp [Source.selectQuotes, h, hlen]

theorem Source.selectQuotes_of_missing_or_empty (s : Source) (level : String)
    (h : s.Quotes.get level = none ∨ s.Quotes.get level = some []) :
    s.selectQuotes level = rangeFirstNonEmpty s.Quotes [] := by
  rcases h with h | h <;> simp [Source.selectQuotes, h]

theorem Source.GetQuote_of_select_nil (s : Source) (level : String)
    (h : s.selectQuotes level = []) : s.GetQuote level = sentinelQuote := by
  simp [Source.GetQuote, h]

theorem Source.GetQuote_eq_head (s : Source) (level : String)
    (h : s.selectQuotes level ≠ []) :
    some (s.GetQuote level) = (s.selectQuotes level).head? := by
  have aux : ∀ quotes : List Quote, quotes ≠ [] →
      some (if h : quotes.length = 0 then sentinelQuote else quotes[0]) = quotes.head? := by
    intro quotes hne
    cases quotes with
    | nil => exact absurd rfl hne
    | cons q rest => simp
  exact aux (s.selectQuotes level) h

end DevWisdom

namespace DevWisdom

/-! ### Quote selection -/

/-- C2 (counterexample): a source whose `chaos` bucket is empty and whose
`lower_aeons` and `treasury` buckets are not; the loop visits `treasury` first.
The fixed enumeration order selects the `lower_aeons` bucket, `GetQuote` returns
the `treasury` quote, and the same map visited in another order gives the
`lower_aeons` quote. -/
theorem GetQuote_fallback_not_in_fixed_order :
    srcTreasuryFirst.Quotes.WF ∧
    srcTreasuryFirst.Quotes.get "chaos" = some [] ∧
    fixedOrderFallback srcTreasuryFirst = [quoteLower] ∧
    srcTreasuryFirst.GetQuote "chaos" = quoteTreasury ∧
    srcTreasuryFirst.GetQuote "chaos" ∉ fixedOrderFallback srcTreasuryFirst ∧
    GoMap.SameMap srcTreasuryFirst.Quotes srcLowerFirst.Quotes ∧
    srcLowerFirst.GetQuote "chaos" = quoteLower := by
  refine ⟨by decide, by decide, by decide, by decide, by decide, by decide, by decide⟩

/-- C2 (amended): when the bucket of the level is missing or empty, `GetQuote`
returns the first quote of the first non-empty bucket in the order in which the
`range` loop visits the entries of the map: every entry visited before it is
empty. -/
theorem GetQuote_fallback_first_visited (s : Source) (level : String)
    (pre post : GoMap (List Quote)) (key : String) (qs : List Quote)
    (hlevel : s.Quotes.get level = none ∨ s.Quotes.get level = some [])
    (hsplit : s.Quotes = pre ++ (key, qs) :: post)
    (hpre : ∀ entry ∈ pre, entry.2 = []) (hqs : qs ≠ []) :
    s.selectQuotes level = qs ∧ some (s.GetQuote level) = qs.head? := by
  have hsel : s.selectQuotes level = qs := by
    rw [Source.selectQuotes_of_missing_or_empty s level hlevel, hsplit]
    exact rangeFirstNonEmpty_append pre post key qs [] hpre hqs
  refine ⟨hsel, ?_⟩
  have hne : s.selectQuotes level ≠ [] := by rw [hsel]; exact hqs
  rw [Source.GetQuote_eq_head s level hne, hsel]

/-- Witness for C2 (amended): `srcTreasuryFirst` queried at "chaos". -/
theorem GetQuote_fallback_first_visited_witness :
    srcTreasuryFirst.selectQuotes "chaos" = [quoteTreasury] ∧
    some (srcTreasuryFirst.GetQuote "chaos") = [quoteTreasury].head? :=
  GetQuote_fallback_first_visited srcTreasuryFirst "chaos" []
    [("chaos", []), ("lower_aeons", [quoteLower])] "treasury" [quoteTreasury]
    (Or.inr (by decide)) rfl (by simp) (by simp)

/-- C3: when some bucket of the source is non-empty, `GetQuote` at any level
string does not take the sentinel return: the selected slice is non-empty, it
is one of the non-empty buckets of the source, and the result is its first
element. -/
theorem GetQuote_of_some_nonempty_bucket (s : Source) (level : String)
    (h : ∃ entry ∈ s.Quotes, entry.2 ≠ []) :
    s.selectQuotes level ≠ [] ∧
    (∃ entry ∈ s.Quotes, entry.2 ≠ [] ∧ s.selectQuotes level = entry.2 ∧
      some (s.GetQuote level) = entry.2.head? ∧ s.GetQuote level ∈ entry.2) ∧
    ((∀ entry ∈ s.Quotes, sentinelQuote ∉ entry.2) → s.GetQuote level ≠ sentinelQuote) := by
  have key : ∃ entry ∈ s.Quotes, entry.2 ≠ [] ∧ s.selectQuotes level = entry.2 := by
    cases hget : s.Quotes.get level with
    | none =>
      rw [Source.selectQuotes_of_missing_or_empty s level (Or.inl hget)]
      exact rangeFirstNonEmpty_mem s.Quotes [] h
    | some qs =>
      by_cases hqs : qs = []
      · subst hqs
        rw [Source.selectQuotes_of_missing_or_empty s level (Or.inr hget)]
        exact rangeFirstNonEmpty_mem s.Quotes [] h
      · exact ⟨(level, qs), GoMap.mem_of_get_eq_some s.Quotes level qs hget, hqs,
          Source.selectQuotes_of_nonempty s level qs hget hqs⟩
  obtain ⟨entry, hmem, hne, hsel⟩ := key
  have hne' : s.selectQuotes level ≠ [] := by rw [hsel]; exact hne
  have hhead : some (s.GetQuote level) = entry.2.head? := by
    rw [Source.GetQuote_eq_head s level hne', hsel]
  have hin : s.GetQuote level ∈ entry.2 := List.mem_of_mem_head? hhead.symm
  refine ⟨hne', ⟨entry, hmem, hne, hsel, hhead, hin⟩, ?_⟩
  intro hno heq
  exact hno entry hmem (heq ▸ hin)

/-- Witness for C3: empty `chaos` bucket, non-empty `treasury` bucket, queried
at "chaos"; the result is the quote of the `treasury` bucket. -/
theorem GetQuote_of_some_nonempty_bucket_witness :
    srcChaosEmpty.Quotes.get "chaos" = some [] ∧
    srcChaosEmpty.Quotes.get "treasury" = some [quoteTreasury] ∧
    srcChaosEmpty.selectQuotes "chaos" ≠ [] ∧
    srcChaosEmpty.GetQuote "chaos" = quoteTreasury ∧
    srcChaosEmpty.GetQuote "chaos" ≠ sentinelQuote :=
  ⟨by decide, by decide,
    (GetQuote_of_some_nonempty_bucket srcChaosEmpty "chaos"
      ⟨("treasury", [quoteTreasury]), by decide, by decide⟩).1,
    by decide, by decide⟩

/-- C4: when every bucket of the source is empty or absent, `GetQuote` at any
level string returns the sentinel quote, whose text, attribution and
encouragement are the fixed ones. -/
theorem GetQuote_sentinel_of_all_empty (s : Source) (level : String)
    (h : ∀ entry ∈ s.Quotes, entry.2 = []) :
    s.selectQuotes level = [] ∧
    s.GetQuote level = sentinelQuote ∧
    (s.GetQuote level).Quote = "Silence is also wisdom." ∧
    (s.GetQuote level).Source = "Unknown" ∧
    (s.GetQuote level).Encouragement = "Sometimes reflection is the answer." := by
  have hsel : s.selectQuotes level = [] := by
    have hlevel : s.Quotes.get level = none ∨ s.Quotes.get level = some [] := by
      cases hget : s.Quotes.get level with
      | none => exact Or.inl rfl
      | some qs =>
        have := h (level, qs) (GoMap.mem_of_get_eq_some s.Quotes level qs hget)
        simp only at this
        exact Or.inr (by rw [this])
    rw [Source.selectQuotes_of_missing_or_empty s level hlevel]
    exact rangeFirstNonEmpty_of_all_empty s.Quotes [] h
  have hq : s.GetQuote level = sentinelQuote := Source.GetQuote_of_select_nil s level hsel
  refine ⟨hsel, hq, ?_, ?_, ?_⟩ <;> rw [hq] <;> rfl

/-- Witness for C4: a source whose only bucket is empty, queried at a level it
does not have. -/
theorem GetQuote_sentinel_of_all_empty_witness :
    (∀ entry ∈ srcSilent.Quotes, entry.2 = []) ∧
    srcSilent.GetQuote "treasury" = sentinelQuote :=
  ⟨by decide, (GetQuote_sentinel_of_all_empty srcSilent "treasury" (by decide)).2.1⟩

end DevWisdom

namespace DevWisdom

theorem Source.GetQuote_eq_head_getD (s : Source) (level : String) :
    s.GetQuote level = (s.selectQuotes level).head?.getD sentinelQuote := by
  have aux : ∀ quotes : List Quote,
      (if h : quotes.length = 0 then sentinelQuote else quotes[0]) =
        quotes.head?.getD sentinelQuote := by
    intro quotes
    cases quotes with
    | nil => rfl
    | cons q rest => simp
  exact aux (s.selectQuotes level)

theorem Source.selectQuotes_head_sameMap (s₁ s₂ : Source) (level : String)
    (hwf : s₁.Quotes.WF) (hsame : GoMap.SameMap s₁.Quotes s₂.Quotes)
    (hcond : (∃ qs, s₁.Quotes.get level = some qs ∧ qs ≠ []) ∨
      (∀ e₁ ∈ s₁.Quotes, ∀ e₂ ∈ s₁.Quotes, e₁.2 ≠ [] → e₂.2 ≠ [] → e₁.2.head? = e₂.2.head?)) :
    (s₁.selectQuotes level).head? = (s₂.selectQuotes level).head? := by
  have hget : s₁.Quotes.get level = s₂.Quotes.get level :=
    GoMap.get_sameMap s₁.Quotes s₂.Quotes hwf hsame level
  have direct : ∀ qs, s₁.Quotes.get level = some qs → qs ≠ [] →
      (s₁.selectQuotes level).head? = (s₂.selectQuotes level).head? := by
    intro qs h₁ hqs
    rw [Source.selectQuotes_of_nonempty s₁ level qs h₁ hqs,
      Source.selectQuotes_of_nonempty s₂ level qs (hget ▸ h₁) hqs]
  rcases hcond with ⟨qs, h₁, hqs⟩ | hheads
  · exact direct qs h₁ hqs
  · by_cases hdir : ∃ qs, s₁.Quotes.get level = some qs ∧ qs ≠ []
    · obtain ⟨qs, h₁, hqs⟩ := hdir
      exact direct qs h₁ hqs
    · have hlevel₁ : s₁.Quotes.get level = none ∨ s₁.Quotes.get level = some [] := by
        cases h : s₁.Quotes.get level with
        | none => exact Or.inl rfl
        | some qs =>
          by_cases hqs : qs = []
          · exact Or.inr (by rw [hqs])
          · exact absurd ⟨qs, h, hqs⟩ hdir
      have hlevel₂ : s₂.Quotes.get level = none ∨ s₂.Quotes.get level = some [] := hget ▸ hlevel₁
      rw [Source.selectQuotes_of_missing_or_empty s₁ level hlevel₁,
        Source.selectQuotes_of_missing_or_empty s₂ level hlevel₂]
      by_cases hany : ∃ entry ∈ s₁.Quotes, entry.2 ≠ []
      · have hany₂ : ∃ entry ∈ s₂.Quotes, entry.2 ≠ [] := by
          obtain ⟨entry, hmem, hne⟩ := hany
          exact ⟨entry, (List.Perm.mem_iff hsame).mp hmem, hne⟩
        obtain ⟨e₁, hmem₁, hne₁, hr₁⟩ := rangeFirstNonEmpty_mem s₁.Quotes [] hany
        obtain ⟨e₂, hmem₂, hne₂, hr₂⟩ := rangeFirstNonEmpty_mem s₂.Quotes [] hany₂
        rw [hr₁, hr₂]
        exact hheads e₁ hmem₁ e₂ ((List.Perm.mem_iff hsame).mpr hmem₂) hne₁ hne₂
      · have hall₁ : ∀ entry ∈ s₁.Quotes, entry.2 = [] := by
          intro entry hmem
          by_contra hne
          exact hany ⟨entry, hmem, hne⟩
        have hall₂ : ∀ entry ∈ s₂.Quotes, entry.2 = [] := fun entry hmem =>
          hall₁ entry ((List.Perm.mem_iff hsame).mpr hmem)
        rw [rangeFirstNonEmpty_of_all_empty s₁.Quotes [] hall₁,
          rangeFirstNonEmpty_of_all_empty s₂.Quotes [] hall₂]

/-! ### `Engine.GetWisdom`, case by case -/

theorem Engine.GetWisdom_of_not_initialized (e : Engine) (score : Float64) (source : String)
    (h : e.initialized = false) :
    e.GetWisdom score source = (.error "engine not initialized", e) := by
  simp [Engine.GetWisdom, h]

theorem Engine.GetWisdom_of_unknown (e : Engine) (score : Float64) (source : String)
    (h : e.initialized = true) (hsrc : e.sources.get source = none) :
    e.GetWisdom score source = (.error ("unknown source: " ++ source), e) := by
  simp [Engine.GetWisdom, h, hsrc]

theorem Engine.GetWisdom_of_known (e : Engine) (score : Float64) (source : String)
    (src : Source) (h : e.initialized = true) (hsrc : e.sources.get source = some src) :
    e.GetWisdom score source = (.ok (src.GetQuote (GetAeonLevel score)), e) := by
  simp [Engine.GetWisdom, h, hsrc]

/-- C5 (counterexample): one source, two visiting orders of its map.  The
`chaos` bucket is empty, the `lower_aeons` and `treasury` buckets begin with
different quotes, and the two calls of `GetQuote` at "chaos" return different
quotes. -/
theorem GetQuote_fallback_order_dependent :
    srcLowerFirst.Quotes.WF ∧
    GoMap.SameMap srcLowerFirst.Quotes srcTreasuryFirst.Quotes ∧
    srcLowerFirst.Name = srcTreasuryFirst.Name ∧
    srcLowerFirst.Icon = srcTreasuryFirst.Icon ∧
    srcLowerFirst.Description = srcTreasuryFirst.Description ∧
    srcLowerFirst.Quotes.get "chaos" = some [] ∧
    srcTreasuryFirst.Quotes.get "chaos" = some [] ∧
    srcLowerFirst.GetQuote "chaos" ≠ srcTreasuryFirst.GetQuote "chaos" := by
  refine ⟨by decide, by decide, by decide, by decide, by decide, by decide, by decide,
    by decide⟩

/-- C5 (amended): two calls on the same source, whatever order the map is
visited in, return the identical quote when the bucket of the level is
non-empty or when all non-empty buckets of the source begin with the same
quote (so also when at most one bucket is non-empty); the same holds for
`GetWisdom` on two engines that agree on the initialized flag and hold that
source under the name. -/
theorem GetQuote_deterministic (s₁ s₂ : Source) (level : String)
    (hwf : s₁.Quotes.WF) (hsame : GoMap.SameMap s₁.Quotes s₂.Quotes)
    (hcond : (∃ qs, s₁.Quotes.get level = some qs ∧ qs ≠ []) ∨
      (∀ e₁ ∈ s₁.Quotes, ∀ e₂ ∈ s₁.Quotes, e₁.2 ≠ [] → e₂.2 ≠ [] → e₁.2.head? = e₂.2.head?)) :
    s₁.GetQuote level = s₂.GetQuote level ∧
    ∀ (e₁ e₂ : Engine) (score : Float64) (name : String),
      GetAeonLevel score = level → e₁.initialized = e₂.initialized →
      e₁.sources.get name = some s₁ → e₂.sources.get name = some s₂ →
      (e₁.GetWisdom score name).1 = (e₂.GetWisdom score name).1 := by
  have hq : s₁.GetQuote level = s₂.GetQuote level := by
    rw [Source.GetQuote_eq_head_getD, Source.GetQuote_eq_head_getD,
      Source.selectQuotes_head_sameMap s₁ s₂ level hwf hsame hcond]
  refine ⟨hq, ?_⟩
  intro e₁ e₂ score name hlevel hinit h₁ h₂
  cases hi : e₁.initialized with
  | false =>
    rw [Engine.GetWisdom_of_not_initialized e₁ score name hi,
      Engine.GetWisdom_of_not_initialized e₂ score name (hinit ▸ hi)]
  | true =>
    rw [Engine.GetWisdom_of_known e₁ score name s₁ hi h₁,
      Engine.GetWisdom_of_known e₂ score name s₂ (hinit ▸ hi) h₂, hlevel, hq]

/-- Witness for C5 (amended): the two visiting orders of the example source
agree at "lower_aeons", whose bucket is non-empty, also through `GetWisdom` at
score 42. -/
theorem GetQuote_deterministic_witness :
    srcLowerFirst.GetQuote "lower_aeons" = srcTreasuryFirst.GetQuote "lower_aeons" ∧
    (engineLowerFirst.GetWisdom (Float64.ofNat 42) "example").1 =
      (engineTreasuryFirst.GetWisdom (Float64.ofNat 42) "example").1 :=
  have h := GetQuote_deterministic srcLowerFirst srcTreasuryFirst "lower_aeons"
    (by decide) (by decide) (Or.inl ⟨[quoteLower], by decide, by decide⟩)
  ⟨h.1, h.2 engineLowerFirst engineTreasuryFirst (Float64.ofNat 42) "example"
    (by decide) (by decide) (by decide) (by decide)⟩

end DevWisdom

namespace DevWisdom

/-! ### Errors of `GetWisdom` -/

/-- C6: `GetWisdom` returns an error exactly when the engine is not initialized
or the source name is not a key of the catalog.  On an uninitialized engine it
fails whatever the input; on an initialized engine it fails exactly for the
names outside the catalog, and for a name of the catalog it succeeds at every
score. -/
theorem GetWisdom_error_iff (e : Engine) (score : Float64) (source : String) :
    ((∃ msg, (e.GetWisdom score source).1 = .error msg) ↔
      (e.initialized = false ∨ source ∉ e.sources.keys)) ∧
    (e.initialized = false →
      (e.GetWisdom score source).1 = .error "engine not initialized") ∧
    (e.initialized = true →
      ((∃ msg, (e.GetWisdom score source).1 = .error msg) ↔ source ∉ e.sources.keys)) ∧
    (e.initialized = true → source ∉ e.sources.keys →
      (e.GetWisdom score source).1 = .error ("unknown source: " ++ source)) ∧
    (e.initialized = true → source ∈ e.sources.keys →
      ∀ score' : Float64, ∃ quote, (e.GetWisdom score' source).1 = .ok quote) := by
  have hunknown : e.initialized = true → source ∉ e.sources.keys →
      (e.GetWisdom score source).1 = .error ("unknown source: " ++ source) := by
    intro hi hk
    rw [Engine.GetWisdom_of_unknown e score source hi
      ((GoMap.get_eq_none_iff e.sources source).mpr hk)]
  have hknown : e.initialized = true → source ∈ e.sources.keys →
      ∀ score' : Float64, ∃ quote, (e.GetWisdom score' source).1 = .ok quote := by
    intro hi hk score'
    cases hget : e.sources.get source with
    | none => exact absurd hk ((GoMap.get_eq_none_iff e.sources source).mp hget)
    | some src =>
      exact ⟨src.GetQuote (GetAeonLevel score'), by
        rw [Engine.GetWisdom_of_known e score' source src hi hget]⟩
  have hoff : e.initialized = false →
      (e.GetWisdom score source).1 = .error "engine not initialized" := by
    intro hi
    rw [Engine.GetWisdom_of_not_initialized e score source hi]
  have hon : e.initialized = true →
      ((∃ msg, (e.GetWisdom score source).1 = .error msg) ↔ source ∉ e.sources.keys) := by
    intro hi
    constructor
    · rintro ⟨msg, hmsg⟩ hk
      obtain ⟨quote, hq⟩ := hknown hi hk score
      rw [hq] at hmsg
      cases hmsg
    · intro hk
      exact ⟨_, hunknown hi hk⟩
  refine ⟨?_, hoff, hon, hunknown, hknown⟩
  cases hi : e.initialized with
  | false =>
    constructor
    · intro _
      exact Or.inl rfl
    · intro _
      exact ⟨_, hoff hi⟩
  | true =>
    rw [hon hi]
    simp

/-- Witness for C6: on the engine initialized from the built-in catalog the
name "nope" fails and the name "bofh" succeeds at the score NaN. -/
theorem GetWisdom_error_iff_witness :
    initializedEngine.initialized = true ∧
    "nope" ∉ initializedEngine.sources.keys ∧
    "bofh" ∈ initializedEngine.sources.keys ∧
    (initializedEngine.GetWisdom (Float64.ofNat 10) "nope").1 =
      .error ("unknown source: " ++ "nope") ∧
    (∃ quote, (initializedEngine.GetWisdom Float64.nan "bofh").1 = .ok quote) :=
  ⟨by decide, by decide, by decide,
    (GetWisdom_error_iff initializedEngine (Float64.ofNat 10) "nope").2.2.2.1
      (by decide) (by decide),
    (GetWisdom_error_iff initializedEngine (Float64.ofNat 10) "bofh").2.2.2.2
      (by decide) (by decide) Float64.nan⟩

/-- C7: on an initialized engine and for a source name of the catalog,
`GetWisdom` returns the quote that the source itself selects for the level of
the score; when the bucket of that level is non-empty the fallback loop is not
used: the selected slice is that bucket and the quote is its first element. -/
theorem GetWisdom_selects_from_source (e : Engine) (score : Float64) (source : String)
    (src : Source) (hinit : e.initialized = true) (hsrc : e.sources.get source = some src) :
    (e.GetWisdom score source).1 = .ok (src.GetQuote (GetAeonLevel score)) ∧
    ∀ qs, src.Quotes.get (GetAeonLevel score) = some qs → qs ≠ [] →
      src.selectQuotes (GetAeonLevel score) = qs ∧
      some (src.GetQuote (GetAeonLevel score)) = qs.head? ∧
      src.GetQuote (GetAeonLevel score) ∈ qs ∧
      ∃ quote ∈ qs, (e.GetWisdom score source).1 = .ok quote := by
  have hres : (e.GetWisdom score source).1 = .ok (src.GetQuote (GetAeonLevel score)) := by
    rw [Engine.GetWisdom_of_known e score source src hinit hsrc]
  refine ⟨hres, ?_⟩
  intro qs hget hqs
  have hsel := Source.selectQuotes_of_nonempty src (GetAeonLevel score) qs hget hqs
  have hne : src.selectQuotes (GetAeonLevel score) ≠ [] := by rw [hsel]; exact hqs
  have hhead : some (src.GetQuote (GetAeonLevel score)) = qs.head? := by
    rw [Source.GetQuote_eq_head src (GetAeonLevel score) hne, hsel]
  have hin : src.GetQuote (GetAeonLevel score) ∈ qs := List.mem_of_mem_head? hhead.symm
  exact ⟨hsel, hhead, hin, _, hin, hres⟩

/-- Witness for C7: the engine holding `srcTreasuryFirst` under "example", at
score 42, returns the quote of the `lower_aeons` bucket although the loop would
visit `treasury` first. -/
theorem GetWisdom_selects_from_source_witness :
    GetAeonLevel (Float64.ofNat 42) = "lower_aeons" ∧
    (engineTreasuryFirst.GetWisdom (Float64.ofNat 42) "example").1 = .ok quoteLower :=
  ⟨by decide,
    (GetWisdom_selects_from_source engineTreasuryFirst (Float64.ofNat 42) "example"
      srcTreasuryFirst (by decide) (by decide)).1⟩

end DevWisdom

namespace DevWisdom

/-! ### Advisor registry -/

theorem GoMap.lookup_result {V : Type} (m : GoMap V) (key : String) (msg : String)
    (r : Except String V)
    (hr : r = match m.get key with
      | none => .error msg
      | some v => .ok v) :
    ((∃ err, r = .error err) ↔ key ∉ m.keys) ∧ (∀ v, m.get key = some v → r = .ok v) := by
  subst hr
  cases hget : m.get key with
  | none =>
    have hk : key ∉ m.keys := (GoMap.get_eq_none_iff m key).mp hget
    exact ⟨⟨fun _ => hk, fun _ => ⟨msg, rfl⟩⟩, fun v hv => by cases hv⟩
  | some v =>
    have hk : ¬ key ∉ m.keys := fun hk => by
      rw [(GoMap.get_eq_none_iff m key).mpr hk] at hget
      cases hget
    refine ⟨⟨?_, fun h => absurd h hk⟩, fun v' hv' => by cases hv'; rfl⟩
    rintro ⟨err, herr⟩
    cases herr

/-- C8: each of `GetAdvisorForMetric`, `GetAdvisorForTool` and
`GetAdvisorForStage` returns an error exactly when the key is absent from its
own table and otherwise returns the entry of that table.  In the registry
initialized from scratch the metric table has the keys "security" (bofh) and
"testing" (stoic), the tool table "project_scorecard" (pistis_sophia) and the
stage table "daily_checkin" (pistis_sophia); "Security" is no metric and the
metric key "security" is no tool. -/
theorem GetAdvisor_by_table (r : AdvisorRegistry) (key : String) :
    (((∃ err, r.GetAdvisorForMetric key = .error err) ↔ key ∉ r.metricAdvisors.keys) ∧
      (∀ info, r.metricAdvisors.get key = some info → r.GetAdvisorForMetric key = .ok info)) ∧
    (((∃ err, r.GetAdvisorForTool key = .error err) ↔ key ∉ r.toolAdvisors.keys) ∧
      (∀ info, r.toolAdvisors.get key = some info → r.GetAdvisorForTool key = .ok info)) ∧
    (((∃ err, r.GetAdvisorForStage key = .error err) ↔ key ∉ r.stageAdvisors.keys) ∧
      (∀ info, r.stageAdvisors.get key = some info → r.GetAdvisorForStage key = .ok info)) ∧
    (initializedRegistry.initialized = true ∧
      initializedRegistry.metricAdvisors.keys = ["security", "testing"] ∧
      initializedRegistry.toolAdvisors.keys = ["project_scorecard"] ∧
      initializedRegistry.stageAdvisors.keys = ["daily_checkin"]) ∧
    ((initializedRegistry.GetAdvisorForMetric "security").toOption.map (·.Advisor) =
        some "bofh" ∧
      (initializedRegistry.GetAdvisorForMetric "testing").toOption.map (·.Advisor) =
        some "stoic" ∧
      (initializedRegistry.GetAdvisorForTool "project_scorecard").toOption.map (·.Advisor) =
        some "pistis_sophia" ∧
      (initializedRegistry.GetAdvisorForStage "daily_checkin").toOption.map (·.Advisor) =
        some "pistis_sophia") ∧
    (initializedRegistry.GetAdvisorForMetric "Security" =
        .error "no advisor for metric: Security" ∧
      initializedRegistry.GetAdvisorForTool "security" =
        .error "no advisor for tool: security" ∧
      initializedRegistry.GetAdvisorForStage "project_scorecard" =
        .error "no advisor for stage: project_scorecard" ∧
      initializedRegistry.GetAdvisorForMetric "daily_checkin" =
        .error "no advisor for metric: daily_checkin") := by
  refine ⟨?_, ?_, ?_, by decide, by decide, ?_⟩
  · exact GoMap.lookup_result r.metricAdvisors key ("no advisor for metric: " ++ key) _ (by
      unfold AdvisorRegistry.GetAdvisorForMetric; cases r.metricAdvisors.get key <;> rfl)
  · exact GoMap.lookup_result r.toolAdvisors key ("no advisor for tool: " ++ key) _ (by
      unfold AdvisorRegistry.GetAdvisorForTool; cases r.toolAdvisors.get key <;> rfl)
  · exact GoMap.lookup_result r.stageAdvisors key ("no advisor for stage: " ++ key) _ (by
      unfold AdvisorRegistry.GetAdvisorForStage; cases r.stageAdvisors.get key <;> rfl)
  · refine ⟨?_, ?_, ?_, ?_⟩ <;> rfl

/-- Witness for C8: the metric "testing" in the registry initialized from
scratch. -/
theorem GetAdvisor_by_table_witness :
    initializedRegistry.GetAdvisorForMetric "testing" =
      .ok { Advisor := "stoic"
            Icon := "🏛️"
            Rationale := "Stoics teach discipline through adversity - tests reveal truth"
            HelpsWith := "Persistence through failures, accepting harsh feedback" } :=
  (GetAdvisor_by_table initializedRegistry "testing").1.2 _ (by decide)

/-! ### Tool calls -/

/-- C9 (counterexample): on the initialized server the metric table maps
"security" to bofh, and a `consult_advisor` call with metric "security" and
tool "project_scorecard" returns the advisor "placeholder", not "bofh". -/
theorem consult_advisor_not_metric_advisor :
    (initializedServer.wisdom.advisors.GetAdvisorForMetric "security").toOption.map
      (·.Advisor) = some "bofh" ∧
    GoMap.get consultParams "metric" = some (.str "security") ∧
    GoMap.get consultParams "tool" = some (.str "project_scorecard") ∧
    resultStringField (initializedServer.HandleToolCall "consult_advisor" consultParams).1
      "advisor" = some "placeholder" ∧
    resultStringField (initializedServer.HandleToolCall "consult_advisor" consultParams).1
      "advisor" ≠ some "bofh" := by
  refine ⟨by decide, by rfl, by rfl, by decide, by decide⟩

/-- C9 (amended): a `consult_advisor` call does no advisor resolution: for every
server state and every parameter bag it returns the same fixed result, whose
advisor is "placeholder", and leaves the server as it was. -/
theorem consult_advisor_placeholder (s : WisdomServer) (params : GoMap Value) :
    (s.HandleToolCall "consult_advisor" params).1 =
      .ok (.obj
        [ ("quote", .str "Wisdom implementation pending")
        , ("advisor", .str "placeholder")
        , ("rationale", .str "Implementation in progress") ]) ∧
    resultStringField (s.HandleToolCall "consult_advisor" params).1 "advisor" =
      some "placeholder" ∧
    (s.HandleToolCall "consult_advisor" params).2 = s := by
  refine ⟨rfl, rfl, rfl⟩

/-- C10: `HandleToolCall` returns an error exactly when the name is none of the
five tool names, compared exactly; it never changes the server, so after a
failed call every call with a tool name of the catalog succeeds.  "bogus" and
"Get_Wisdom" fail. -/
theorem HandleToolCall_error_iff (s : WisdomServer) (name : String) (params : GoMap Value) :
    ((∃ err, (s.HandleToolCall name params).1 = .error err) ↔ name ∉ toolCatalog) ∧
    (name ∉ toolCatalog → (s.HandleToolCall name params).1 = .error ("unknown tool: " ++ name)) ∧
    (s.HandleToolCall name params).2 = s ∧
    (name ∉ toolCatalog → ∀ next ∈ toolCatalog, ∀ params' : GoMap Value,
      ∃ result, ((s.HandleToolCall name params).2.HandleToolCall next params').1 = .ok result) ∧
    (s.HandleToolCall "bogus" params).1 = .error "unknown tool: bogus" ∧
    (s.HandleToolCall "Get_Wisdom" params).1 = .error "unknown tool: Get_Wisdom" := by
  have hok : ∀ (t : WisdomServer) (next : String) (p : GoMap Value), next ∈ toolCatalog →
      ∃ result, (t.HandleToolCall next p).1 = .ok result := by
    intro t next p hmem
    simp only [toolCatalog, List.mem_cons, List.mem_singleton, List.not_mem_nil, or_false] at hmem
    rcases hmem with h | h | h | h | h <;> subst h <;> exact ⟨_, rfl⟩
  have herr : ∀ n : String, n ∉ toolCatalog →
      (s.HandleToolCall n params).1 = .error ("unknown tool: " ++ n) := by
    intro n hmem
    simp only [toolCatalog, List.mem_cons, List.mem_singleton, List.not_mem_nil, or_false,
      not_or] at hmem
    obtain ⟨h1, h2, h3, h4, h5⟩ := hmem
    simp [WisdomServer.HandleToolCall, h1, h2, h3, h4, h5]
  have hstate : ∀ (n : String), (s.HandleToolCall n params).2 = s := by
    intro n
    unfold WisdomServer.HandleToolCall
    split_ifs <;> rfl
  refine ⟨⟨?_, fun h => ⟨_, herr name h⟩⟩, herr name, hstate name, ?_, ?_, ?_⟩
  · rintro ⟨err, herr'⟩ hmem
    obtain ⟨result, hres⟩ := hok s name params hmem
    rw [hres] at herr'
    cases herr'
  · intro _ next hnext params'
    rw [hstate name]
    exact hok s next params' hnext
  · exact herr "bogus" (by decide)
  · exact herr "Get_Wisdom" (by decide)

/-- Witness for C10: on the initialized server "bogus" fails and the following
`get_wisdom` call succeeds. -/
theorem HandleToolCall_error_iff_witness :
    "bogus" ∉ toolCatalog ∧
    (initializedServer.HandleToolCall "bogus" []).1 = .error ("unknown tool: " ++ "bogus") ∧
    ∃ result, ((initializedServer.HandleToolCall "bogus" []).2.HandleToolCall
      "get_wisdom" [("score", .num (Float64.ofNat 40)), ("source", .str "bofh")]).1 =
        .ok result :=
  have h := HandleToolCall_error_iff initializedServer "bogus" []
  ⟨by decide, h.2.1 (by decide),
    h.2.2.2.1 (by decide) "get_wisdom" (by decide) _⟩

end DevWisdom

namespace DevWisdom

/-! ### Initialization -/

theorem Config.Load_no_error (c : Config) (env : Env) : (c.Load env).2 = none := by
  unfold Config.Load
  lift_lets
  intro source c₁ c₂ c₃ c₄ c₅
  by_cases hstat : env.Stat c₅.configPath = true
  · rw [if_pos hstat]
    cases env.ReadFile c₅.configPath with
    | none => rfl
    | some data =>
      show (if (env.Unmarshal data c₅).2 = true then ((env.Unmarshal data c₅).1, none)
        else ((env.Unmarshal data c₅).1, none)).2 = none
      split_ifs <;> rfl
  · rw [if_neg hstat]

theorem Engine.Initialize_of_initialized (e : Engine) (env : Env) (h : e.initialized = true) :
    e.Initialize env = (e, none) := by
  simp [Engine.Initialize, h]

theorem Engine.Initialize_of_not_initialized (e : Engine) (env : Env)
    (h : e.initialized = false) :
    e.Initialize env =
      ({ sources := GetBuiltInSources.foldl (fun m entry => m.set entry.1 entry.2) e.sources
         advisors := e.advisors.Initialize
         config := (e.config.Load env).1
         initialized := true }, none) := by
  have hload : e.config.Load env = ((e.config.Load env).1, none) := by
    rw [← Config.Load_no_error e.config env]
  unfold Engine.Initialize
  rw [hload]
  simp [h, Engine.loadBuiltInSources]

theorem Engine.Initialize_no_error (e : Engine) (env : Env) : (e.Initialize env).2 = none := by
  cases h : e.initialized with
  | true => rw [Engine.Initialize_of_initialized e env h]
  | false => rw [Engine.Initialize_of_not_initialized e env h]

theorem Engine.Initialize_initialized (e : Engine) (env : Env) :
    (e.Initialize env).1.initialized = true := by
  cases h : e.initialized with
  | true => rw [Engine.Initialize_of_initialized e env h]; exact h
  | false => rw [Engine.Initialize_of_not_initialized e env h]

theorem Engine.Initialize_new_sources (env env' : Env) :
    ((NewEngine env).Initialize env').1.sources = GetBuiltInSources := by
  rw [Engine.Initialize_of_not_initialized (NewEngine env) env' rfl]
  rfl

theorem Engine.Initialize_new_advisors (env env' : Env) :
    ((NewEngine env).Initialize env').1.advisors = initializedRegistry := by
  rw [Engine.Initialize_of_not_initialized (NewEngine env) env' rfl]
  rfl

end DevWisdom

namespace DevWisdom

/-! ### The loop of `Run` -/

theorem WisdomServer.runLoop_messages (writeErr : Nat → Option String)
    (hwrite : ∀ n, writeErr n = none) (msgs : List (GoMap Value)) (rest : List Input)
    (written : List (GoMap Value)) :
    WisdomServer.runLoop writeErr (msgs.map Input.message ++ rest) written =
      WisdomServer.runLoop writeErr rest (written ++ msgs) := by
  induction msgs generalizing written with
  | nil => simp
  | cons msg more ih =>
    have hstep : WisdomServer.runLoop writeErr
        (Input.message msg :: (more.map Input.message ++ rest)) written =
        WisdomServer.runLoop writeErr (more.map Input.message ++ rest) (written ++ [msg]) := by
      simp only [WisdomServer.runLoop, hwrite]
    rw [List.map_cons, List.cons_append, hstep, ih (written ++ [msg]), List.append_assoc]
    rfl

theorem WisdomServer.Run_eq_runLoop (s : WisdomServer) (env : Env) (stdin : List Input)
    (writeErr : Nat → Option String) :
    (s.Run env stdin writeErr).1 = (WisdomServer.runLoop writeErr stdin []).1 ∧
    (s.Run env stdin writeErr).2.1 = (WisdomServer.runLoop writeErr stdin []).2 := by
  have hinit : s.wisdom.Initialize env = ((s.wisdom.Initialize env).1, none) := by
    rw [← Engine.Initialize_no_error s.wisdom env]
  unfold WisdomServer.Run
  rw [hinit]
  exact ⟨rfl, rfl⟩

/-- C11 (counterexample): the first record is malformed and a well-formed
record follows.  `Run` returns the decode error instead of nil and writes
nothing: no error response and no answer to the second record. -/
theorem Run_stops_at_malformed :
    ((NewWisdomServer emptyEnv).Run emptyEnv stdinMalformedFirst writeAlways).1 =
      some "failed to decode message: invalid character 'x' looking for beginning of value" ∧
    ((NewWisdomServer emptyEnv).Run emptyEnv stdinMalformedFirst writeAlways).2.1 = [] := by
  exact ⟨rfl, rfl⟩

/-- C11 (amended): on a writer that never fails, `Run` echoes the well-formed
records in order up to the first malformed record, writes nothing for that
record or any later one and returns the decode error; it returns nil, having
echoed every record, when no record of the stream is malformed. -/
theorem Run_echoes_until_malformed (s : WisdomServer) (env : Env)
    (msgs : List (GoMap Value)) (err : String) (rest : List Input)
    (writeErr : Nat → Option String) (hwrite : ∀ n, writeErr n = none) :
    (s.Run env (msgs.map Input.message ++ Input.malformed err :: rest) writeErr).1 =
      some ("failed to decode message: " ++ err) ∧
    (s.Run env (msgs.map Input.message ++ Input.malformed err :: rest) writeErr).2.1 = msgs ∧
    (s.Run env (msgs.map Input.message) writeErr).1 = none ∧
    (s.Run env (msgs.map Input.message) writeErr).2.1 = msgs := by
  have hbad : WisdomServer.runLoop writeErr
      (msgs.map Input.message ++ Input.malformed err :: rest) [] =
      (some ("failed to decode message: " ++ err), msgs) := by
    rw [WisdomServer.runLoop_messages writeErr hwrite msgs _ []]
    simp [WisdomServer.runLoop]
  have hgood : WisdomServer.runLoop writeErr (msgs.map Input.message) [] = (none, msgs) := by
    have h := WisdomServer.runLoop_messages writeErr hwrite msgs [] []
    simp only [List.append_nil, List.nil_append] at h
    rw [h]
    rfl
  obtain ⟨h₁, h₂⟩ := WisdomServer.Run_eq_runLoop s env
    (msgs.map Input.message ++ Input.malformed err :: rest) writeErr
  obtain ⟨h₃, h₄⟩ := WisdomServer.Run_eq_runLoop s env (msgs.map Input.message) writeErr
  rw [h₁, h₂, h₃, h₄, hbad, hgood]
  exact ⟨rfl, rfl, rfl, rfl⟩

/-- Witness for C11 (amended): one well-formed record, then a malformed one,
then another well-formed one. -/
theorem Run_echoes_until_malformed_witness :
    ((NewWisdomServer emptyEnv).Run emptyEnv
      ([requestGetWisdom].map Input.message ++
        Input.malformed "unexpected EOF" :: [Input.message requestGetWisdom]) writeAlways).1 =
      some ("failed to decode message: " ++ "unexpected EOF") ∧
    ((NewWisdomServer emptyEnv).Run emptyEnv
      ([requestGetWisdom].map Input.message ++
        Input.malformed "unexpected EOF" :: [Input.message requestGetWisdom]) writeAlways).2.1 =
      [requestGetWisdom] :=
  have h := Run_echoes_until_malformed (NewWisdomServer emptyEnv) emptyEnv [requestGetWisdom]
    "unexpected EOF" [Input.message requestGetWisdom] writeAlways (fun _ => rfl)
  ⟨h.1, h.2.1⟩

/-! ### The consultation log -/

theorem WisdomServer.HandleToolCall_state (s : WisdomServer) (name : String)
    (params : GoMap Value) : (s.HandleToolCall name params).2 = s := by
  unfold WisdomServer.HandleToolCall
  split_ifs <;> rfl

theorem callAll_state (s : WisdomServer) (calls : List (String × GoMap Value)) :
    callAll s calls = s := by
  induction calls generalizing s with
  | nil => rfl
  | cons call more ih =>
    have hstep : callAll s (call :: more) =
        callAll (s.HandleToolCall call.1 call.2).2 more := rfl
    rw [hstep, WisdomServer.HandleToolCall_state]
    exact ih s

/-- C12 (counterexample): one `consult_advisor` call on the initialized server,
then `get_consultation_log` with no limit: the sequence returned has no entry,
not one. -/
theorem consultation_log_misses_consult :
    consultCount [("consult_advisor", consultParams)] = 1 ∧
    resultLength ((callAll initializedServer
      [("consult_advisor", consultParams)]).HandleToolCall "get_consultation_log" []).1 =
        some 0 := by
  exact ⟨by decide, rfl⟩

/-- C12 (amended): no tool call records a consultation: after any sequence of
tool calls the server is as before and `get_consultation_log` returns the empty
sequence, whatever its parameters. -/
theorem consultation_log_always_empty (s : WisdomServer)
    (calls : List (String × GoMap Value)) (params : GoMap Value) :
    callAll s calls = s ∧
    ((callAll s calls).HandleToolCall "get_consultation_log" params).1 = .ok (.arr []) ∧
    resultLength ((callAll s calls).HandleToolCall "get_consultation_log" params).1 = some 0 := by
  rw [callAll_state s calls]
  exact ⟨rfl, rfl, rfl⟩

/-- C13: `GetWisdom`, whether it succeeds or fails, returns the engine as it
was: catalog, advisor tables, configuration and initialized flag; the
`get_wisdom` tool call leaves the server as it was, and the consultation log
read after it is the one read before it. -/
theorem GetWisdom_read_only (e : Engine) (score : Float64) (source : String)
    (s : WisdomServer) (params params' : GoMap Value) :
    (e.GetWisdom score source).2 = e ∧
    (e.GetWisdom score source).2.sources = e.sources ∧
    (e.GetWisdom score source).2.advisors = e.advisors ∧
    (e.GetWisdom score source).2.config = e.config ∧
    (e.GetWisdom score source).2.initialized = e.initialized ∧
    (s.HandleToolCall "get_wisdom" params).2 = s ∧
    ((s.HandleToolCall "get_wisdom" params).2.HandleToolCall "get_consultation_log" params').1 =
      (s.HandleToolCall "get_consultation_log" params').1 := by
  have he : (e.GetWisdom score source).2 = e := by
    unfold Engine.GetWisdom
    split_ifs
    · rfl
    · split <;> rfl
  rw [he]
  exact ⟨rfl, rfl, rfl, rfl, rfl, rfl, rfl⟩

end DevWisdom

namespace DevWisdom

/-! ### Idempotent initialization -/

theorem AdvisorRegistry.Initialize_sets_flag (r : AdvisorRegistry) :
    r.Initialize.initialized = true := by
  unfold AdvisorRegistry.Initialize
  cases h : r.initialized with
  | true => simpa using h
  | false => simp

/-- C14: `Engine.Initialize` on an initialized engine returns no error and the
engine as it was; `Initialize` never returns an error and a second `Initialize`
after it, in whatever surroundings, changes nothing; likewise a second
`AdvisorRegistry.Initialize` returns the registry of the first, with the same
three tables. -/
theorem Initialize_idempotent (e : Engine) (env env' : Env) (r : AdvisorRegistry) :
    (e.initialized = true → e.Initialize env = (e, none)) ∧
    (e.Initialize env).2 = none ∧
    (e.Initialize env).1.Initialize env' = ((e.Initialize env).1, none) ∧
    (r.initialized = true → r.Initialize = r) ∧
    r.Initialize.Initialize = r.Initialize ∧
    (r.Initialize.Initialize.metricAdvisors = r.Initialize.metricAdvisors ∧
      r.Initialize.Initialize.toolAdvisors = r.Initialize.toolAdvisors ∧
      r.Initialize.Initialize.stageAdvisors = r.Initialize.stageAdvisors) := by
  have hr : ∀ r' : AdvisorRegistry, r'.initialized = true → r'.Initialize = r' := by
    intro r' h
    simp [AdvisorRegistry.Initialize, h]
  have hrr : r.Initialize.Initialize = r.Initialize :=
    hr r.Initialize (AdvisorRegistry.Initialize_sets_flag r)
  refine ⟨Engine.Initialize_of_initialized e env, Engine.Initialize_no_error e env,
    Engine.Initialize_of_initialized _ env' (Engine.Initialize_initialized e env),
    hr r, hrr, ?_⟩
  rw [hrr]
  exact ⟨rfl, rfl, rfl⟩

/-- Witness for C14: the engine initialized in `emptyEnv` is initialized again
in `fileEnv`, and the initialized registry is initialized again. -/
theorem Initialize_idempotent_witness :
    initializedEngine.Initialize fileEnv = (initializedEngine, none) ∧
    initializedRegistry.Initialize = initializedRegistry :=
  have h := Initialize_idempotent initializedEngine fileEnv fileEnv initializedRegistry
  ⟨h.1 (by decide), h.2.2.2.1 (by decide)⟩

/-! ### The built-in catalog -/

theorem GetBuiltInSources_mem (name : String) (src : Source)
    (h : (name, src) ∈ GetBuiltInSources) :
    name = "bofh" ∧ src.Quotes =
      [("chaos", [{ Quote := "It's not a bug, it's a feature."
                    Source := "BOFH Excuse Calendar"
                    Encouragement := "Document it and ship it." }])] := by
  have hlist : GetBuiltInSources =
      [("bofh", { Name := "BOFH (Bastard Operator From Hell)"
                  Icon := "ðŸ˜ˆ"
                  Quotes := [("chaos", [{ Quote := "It's not a bug, it's a feature."
                                          Source := "BOFH Excuse Calendar"
                                          Encouragement := "Document it and ship it." }])] })] := by
    decide
  rw [hlist, List.mem_singleton] at h
  cases h
  exact ⟨rfl, rfl⟩

/-- C15: every source of the built-in catalog, and so every source of an engine
initialized after `NewEngine`, has a non-empty bucket, and `GetQuote` on it at
any level string selects a non-empty slice and returns a quote other than the
sentinel. -/
theorem builtin_sources_nonempty (env env' : Env) (name : String) (src : Source)
    (level : String)
    (h : (name, src) ∈ GetBuiltInSources ∨
      (name, src) ∈ ((NewEngine env).Initialize env').1.sources) :
    (∃ entry ∈ src.Quotes, entry.2 ≠ []) ∧
    src.selectQuotes level ≠ [] ∧
    src.GetQuote level ≠ sentinelQuote := by
  have hmem : (name, src) ∈ GetBuiltInSources := by
    rcases h with h | h
    · exact h
    · rw [Engine.Initialize_new_sources env env'] at h
      exact h
  obtain ⟨_, hq⟩ := GetBuiltInSources_mem name src hmem
  have hany : ∃ entry ∈ src.Quotes, entry.2 ≠ [] := by
    rw [hq]
    exact ⟨_, List.mem_singleton.mpr rfl, by simp⟩
  have hsel : src.selectQuotes level =
      [{ Quote := "It's not a bug, it's a feature."
         Source := "BOFH Excuse Calendar"
         Encouragement := "Document it and ship it." }] := by
    by_cases hl : "chaos" = level
    · simp [Source.selectQuotes, hq, GoMap.get, hl, rangeFirstNonEmpty]
    · simp [Source.selectQuotes, hq, GoMap.get, hl, rangeFirstNonEmpty]
  refine ⟨hany, by rw [hsel]; simp, ?_⟩
  rw [Source.GetQuote_eq_head_getD, hsel]
  decide

/-- Witness for C15: the source "bofh" of the engine initialized in `emptyEnv`,
queried at "treasury", a level for which it has no bucket. -/
theorem builtin_sources_nonempty_witness :
    ("bofh", bofhSource) ∈ initializedEngine.sources ∧
    bofhSource.Quotes.get "treasury" = none ∧
    bofhSource.GetQuote "treasury" ≠ sentinelQuote :=
  ⟨by decide, by decide,
    (builtin_sources_nonempty emptyEnv emptyEnv "bofh" bofhSource "treasury"
      (Or.inr (by decide))).2.2⟩

end DevWisdom

namespace DevWisdom

/-! ### Configuration -/

/-- C16 (the code at the failing input): `EXARP_WISDOM_SOURCE` is "stoic",
`EXARP_DISABLE_WISDOM` is "1" and the marker file exists.  Without a config
file `Load` yields the source "stoic" and disabled; with the config file that
names "bofh" and `disabled: false`, `Load` yields the source "bofh" and not
disabled: the file replaces what the environment and the marker file set. -/
theorem Config_Load_file_overrides_env :
    (fileEnv.Getenv "EXARP_WISDOM_SOURCE" = "stoic" ∧
      fileEnv.Getenv "EXARP_DISABLE_WISDOM" = "1" ∧
      fileEnv.Stat ".exarp_no_wisdom" = true) ∧
    (((NewConfig envOnly).Load envOnly).1.Source = "stoic" ∧
      ((NewConfig envOnly).Load envOnly).1.Disabled = true) ∧
    ((NewConfig fileEnv).configPath = ".exarp_wisdom_config" ∧
      fileEnv.ReadFile ".exarp_wisdom_config" = some configFileText) ∧
    (((NewConfig fileEnv).Load fileEnv).1.Source = "bofh" ∧
      ((NewConfig fileEnv).Load fileEnv).1.Disabled = false ∧
      ((NewConfig fileEnv).Load fileEnv).2 = none) := by
  refine ⟨⟨by decide, by decide, by decide⟩, ⟨by decide, by decide⟩, ⟨by decide, by decide⟩,
    ⟨by decide, by decide, by decide⟩⟩

end DevWisdom

namespace DevWisdom

/-! ### Advisors and the catalog -/

/-- C17 (counterexample): the metric table registers the advisor "stoic", the
tool and stage tables register "pistis_sophia", which is also the default
source of `NewConfig`; on the initialized engine `GetWisdom` fails for both
names with an unknown-source error. -/
theorem GetWisdom_fails_for_registered_advisor :
    (initializedEngine.advisors.GetAdvisorForMetric "testing").toOption.map (·.Advisor) =
      some "stoic" ∧
    (initializedEngine.advisors.GetAdvisorForTool "project_scorecard").toOption.map
      (·.Advisor) = some "pistis_sophia" ∧
    (NewConfig emptyEnv).Source = "pistis_sophia" ∧
    (initializedEngine.GetWisdom (Float64.ofNat 40) "stoic").1 =
      .error "unknown source: stoic" ∧
    (initializedEngine.GetWisdom (Float64.ofNat 40) "pistis_sophia").1 =
      .error "unknown source: pistis_sophia" := by
  refine ⟨by decide, by decide, by decide, rfl, rfl⟩

/-- C17 (amended): the advisor ids registered in the three tables are "bofh",
"stoic" and "pistis_sophia", and the default source is "pistis_sophia"; the
built-in catalog holds "bofh" only, so on an engine initialized after
`NewEngine` and at every score `GetWisdom` succeeds for the name "bofh" and for
no other name. -/
theorem GetWisdom_succeeds_only_for_bofh (env env' : Env) (score : Float64) (name : String) :
    ((∃ quote, (((NewEngine env).Initialize env').1.GetWisdom score name).1 = .ok quote) ↔
      name = "bofh") ∧
    (((NewEngine env).Initialize env').1.GetWisdom score "bofh").1 =
      .ok { Quote := "It's not a bug, it's a feature."
            Source := "BOFH Excuse Calendar"
            Encouragement := "Document it and ship it." } ∧
    (((NewEngine env).Initialize env').1.GetWisdom score "stoic").1 =
      .error "unknown source: stoic" ∧
    (((NewEngine env).Initialize env').1.GetWisdom score "pistis_sophia").1 =
      .error "unknown source: pistis_sophia" ∧
    ((NewEngine env).Initialize env').1.advisors.metricAdvisors.map (·.2.Advisor) =
      ["bofh", "stoic"] ∧
    ((NewEngine env).Initialize env').1.advisors.toolAdvisors.map (·.2.Advisor) =
      ["pistis_sophia"] ∧
    ((NewEngine env).Initialize env').1.advisors.stageAdvisors.map (·.2.Advisor) =
      ["pistis_sophia"] ∧
    (NewConfig env).Source = "pistis_sophia" := by
  have hinit := Engine.Initialize_initialized (NewEngine env) env'
  have hsrc := Engine.Initialize_new_sources env env'
  have hadv := Engine.Initialize_new_advisors env env'
  have hbofh : ((NewEngine env).Initialize env').1.sources.get "bofh" = some bofhSource := by
    rw [hsrc]; decide
  have hother : ∀ n : String, n ≠ "bofh" →
      ((NewEngine env).Initialize env').1.sources.get n = none := by
    intro n hn
    rw [hsrc, GoMap.get_eq_none_iff]
    intro hmem
    have hkeys : GoMap.keys GetBuiltInSources = ["bofh"] := by decide
    rw [hkeys, List.mem_singleton] at hmem
    exact hn hmem
  have hquote : ∀ level : String, bofhSource.GetQuote level =
      { Quote := "It's not a bug, it's a feature."
        Source := "BOFH Excuse Calendar"
        Encouragement := "Document it and ship it." } := by
    intro level
    rw [Source.GetQuote_eq_head_getD]
    by_cases hl : "chaos" = level
    · simp [Source.selectQuotes, bofhSource, GoMap.get, hl, rangeFirstNonEmpty]
    · simp [Source.selectQuotes, bofhSource, GoMap.get, hl, rangeFirstNonEmpty]
  have hok : (((NewEngine env).Initialize env').1.GetWisdom score "bofh").1 =
      .ok { Quote := "It's not a bug, it's a feature."
            Source := "BOFH Excuse Calendar"
            Encouragement := "Document it and ship it." } := by
    rw [Engine.GetWisdom_of_known _ score "bofh" bofhSource hinit hbofh, hquote]
  have herr : ∀ n : String, n ≠ "bofh" →
      (((NewEngine env).Initialize env').1.GetWisdom score n).1 =
        .error ("unknown source: " ++ n) := by
    intro n hn
    rw [Engine.GetWisdom_of_unknown _ score n hinit (hother n hn)]
  refine ⟨⟨?_, ?_⟩, hok, herr "stoic" (by decide), herr "pistis_sophia" (by decide), ?_, ?_, ?_,
    rfl⟩
  · rintro ⟨quote, hq⟩
    by_contra hn
    rw [herr name hn] at hq
    cases hq
  · intro hn
    subst hn
    exact ⟨_, hok⟩
  · rw [hadv]; decide
  · rw [hadv]; decide
  · rw [hadv]; decide

/-! ### Order of the levels -/

theorem levelRank_GetAeonLevel_fin (q : ℚ) :
    levelRank (GetAeonLevel (Float64.fin q)) =
      if q < 30 then 0 else if q < 50 then 1 else if q < 70 then 2 else if q < 85 then 3
      else 4 := by
  simp only [GetAeonLevel, Float64.lt, Float64.ofNat, decide_eq_true_eq, Nat.cast_ofNat]
  split_ifs <;> decide

/-- C18: `GetAeonLevel` is monotone: when `s₁ <= s₂` holds in Go, the level of
`s₁` is not above the level of `s₂` in the order chaos, lower_aeons,
middle_aeons, upper_aeons, treasury; every result is one of these five names,
and each of the five is the level of some score. -/
theorem GetAeonLevel_monotone (s₁ s₂ : Float64) :
    (s₁.le s₂ = true → levelRank (GetAeonLevel s₁) ≤ levelRank (GetAeonLevel s₂)) ∧
    GetAeonLevel s₁ ∈ levelOrder ∧
    (∀ level ∈ levelOrder, ∃ score, GetAeonLevel score = level) ∧
    levelOrder = ["chaos", "lower_aeons", "middle_aeons", "upper_aeons", "treasury"] ∧
    (levelRank "chaos" = 0 ∧ levelRank "lower_aeons" = 1 ∧ levelRank "middle_aeons" = 2 ∧
      levelRank "upper_aeons" = 3 ∧ levelRank "treasury" = 4) := by
  have hneg : levelRank (GetAeonLevel Float64.negInf) = 0 := by decide
  have hpos : levelRank (GetAeonLevel Float64.posInf) = 4 := by decide
  have hle4 : ∀ q : ℚ, levelRank (GetAeonLevel (Float64.fin q)) ≤ 4 := by
    intro q
    rw [levelRank_GetAeonLevel_fin]
    split_ifs <;> omega
  refine ⟨?_, ?_, ?_, by decide, by decide⟩
  · intro h
    cases s₁ <;> cases s₂ <;> simp only [Float64.le, Bool.false_eq_true] at h
    · omega
    · rw [hneg]; exact Nat.zero_le _
    · rw [hneg]; exact Nat.zero_le _
    · rw [hpos]
    · rw [hpos]; exact hle4 _
    · rename_i a b
      have hab : a ≤ b := by simpa using h
      rw [levelRank_GetAeonLevel_fin, levelRank_GetAeonLevel_fin]
      split_ifs <;> first | omega | (exfalso; linarith)
  · unfold GetAeonLevel
    split_ifs <;> decide
  · intro level hlevel
    simp only [levelOrder, List.mem_cons, List.mem_singleton, List.not_mem_nil, or_false]
      at hlevel
    rcases hlevel with h | h | h | h | h <;> subst h
    · exact ⟨Float64.ofNat 0, by decide⟩
    · exact ⟨Float64.ofNat 30, by decide⟩
    · exact ⟨Float64.ofNat 50, by decide⟩
    · exact ⟨Float64.ofNat 70, by decide⟩
    · exact ⟨Float64.ofNat 85, by decide⟩

/-- Witness for C18: the scores 29 and 71. -/
theorem GetAeonLevel_monotone_witness :
    (Float64.ofNat 29).le (Float64.ofNat 71) = true ∧
    levelRank (GetAeonLevel (Float64.ofNat 29)) ≤ levelRank (GetAeonLevel (Float64.ofNat 71)) :=
  ⟨by decide, (GetAeonLevel_monotone (Float64.ofNat 29) (Float64.ofNat 71)).1 (by decide)⟩

end DevWisdom
